import Mathlib

/-!
Shallow embedding of `psst-gui/src/database.rs`: the `Web` adaptation layer
between the wrapped Spotify client library (`aspotify`) and the application's
domain model, together with proofs about its pagination helper, DTO-to-domain
converters, error wrapping and authenticated-client accessor.

External library values (pages, DTOs) are modelled as plain Lean structures
holding exactly the fields the reviewed file reads.  Rust panics (`unwrap`,
`unimplemented!`) are modelled as the `none` branch of `Option`-valued
conversions.  The asynchronous pagination loop is modelled as a fuel-indexed
recursion: `fuel` bounds the number of loop iterations, and running out of
fuel is a distinct outcome so that genuine termination is observable.
-/

/-- A paginated API response envelope (`aspotify::Page`): the items of the
current slice plus the reported `total`, `limit` and `offset` metadata. -/
structure Page (U : Type) where
  items : List U
  total : Nat
  limit : Nat
  offset : Nat

/-- Outcome of a run of the pagination loop: normal completion with the
accumulated results, an error propagated out of a fetch (token acquisition or
the wrapped API call), or fuel exhaustion (the loop was still running). -/
inductive PagingOutcome (T : Type) where
  | ok (results : List T)
  | err
  | out

/-- The loop of `Web::with_paging` (database.rs lines 61-76).  `fetch l o`
stands for `iter_fn(self.client().await?, l, o).await?.data`: it yields the
page for requested limit `l` and offset `o`, or `none` when either the client
accessor or the request fails.  State: remaining fuel, current `limit` and
`offset`, accumulated `results`. -/
def with_paging.go {U T : Type} (fetch : Nat → Nat → Option (Page U))
    (map_fn : U → T) : Nat → Nat → Nat → List T → PagingOutcome T
  | 0, _, _, _ => .out
  | fuel + 1, limit, offset, results =>
    match fetch limit offset with
    | none => .err
    | some page =>
      let results' := results ++ page.items.map map_fn
      if page.total > results'.length then
        with_paging.go fetch map_fn fuel page.limit (page.offset + page.limit)
          results'
      else
        .ok results'

/-- `Web::with_paging` (database.rs lines 50-77): start the loop with
`limit = 50`, `offset = 0` and empty results. -/
def with_paging {U T : Type} (fetch : Nat → Nat → Option (Page U))
    (map_fn : U → T) (fuel : Nat) : PagingOutcome T :=
  with_paging.go fetch map_fn fuel 50 0 []

/-- One successfully fetched page of a `with_paging` run, with the limit and
offset that were requested for it and the accumulated results just after its
items were appended. -/
structure TraceEntry (U T : Type) where
  reqLimit : Nat
  reqOffset : Nat
  page : Page U
  resultsAfter : List T

/-- The successful iterations of the `with_paging` loop, in order. -/
def with_paging.trace {U T : Type} (fetch : Nat → Nat → Option (Page U))
    (map_fn : U → T) : Nat → Nat → Nat → List T → List (TraceEntry U T)
  | 0, _, _, _ => []
  | fuel + 1, limit, offset, results =>
    match fetch limit offset with
    | none => []
    | some page =>
      let results' := results ++ page.items.map map_fn
      { reqLimit := limit, reqOffset := offset, page := page,
        resultsAfter := results' } ::
        (if page.total > results'.length then
          with_paging.trace fetch map_fn fuel page.limit
            (page.offset + page.limit) results'
        else [])

/-- The (limit, offset) pairs of the page requests a `with_paging` run issues,
in order. -/
def with_paging.reqs {U T : Type} (fetch : Nat → Nat → Option (Page U))
    (map_fn : U → T) : Nat → Nat → Nat → List T → List (Nat × Nat)
  | 0, _, _, _ => []
  | fuel + 1, limit, offset, results =>
    (limit, offset) ::
      match fetch limit offset with
      | none => []
      | some page =>
        let results' := results ++ page.items.map map_fn
        if page.total > results'.length then
          with_paging.reqs fetch map_fn fuel page.limit
            (page.offset + page.limit) results'
        else []

/-- A consistent mock page source over `Nat` items: every request is answered
with the requested limit and offset, a fixed total, and the right item count. -/
def mockFetch (total : Nat) : Nat → Nat → Option (Page Nat) :=
  fun l o => some ⟨List.range (min l (total - o)), total, l, o⟩

/-- C2 as stated by the spec: on every iteration of the loop that continues,
the offset used for the next page request equals the offset of the previous
request plus the limit reported by the page fetched for it. -/
def offsetAdvanceClaim {U T : Type} (fetch : Nat → Nat → Option (Page U))
    (map_fn : U → T) (fuel : Nat) : Prop :=
  ∀ i l1 o1 l2 o2 page,
    (with_paging.reqs fetch map_fn fuel 50 0 []).get? i = some (l1, o1) →
    (with_paging.reqs fetch map_fn fuel 50 0 []).get? (i + 1) = some (l2, o2) →
    fetch l1 o1 = some page →
    o2 = o1 + page.limit

/-- A page source whose pages report offset 7 no matter which offset was
requested (and a large total, so the loop keeps going). -/
def badFetch : Nat → Nat → Option (Page Nat) :=
  fun l _ => some ⟨[0], 100, l, 7⟩

/-- `aspotify::AlbumType`, the album type as reported by the API. -/
inductive SAlbumType where
  | album
  | single
  | compilation

/-- The domain `AlbumType` (`data` module): Album, Single or Compilation. -/
inductive AlbumType where
  | Album
  | Single
  | Compilation

/-- Modelled from the spec: the `Default` implementation of the domain
`AlbumType` (it lives in the application's `data` module, which is not part
of the reviewed file) — a missing album type defaults to `Album`. -/
def AlbumType.defaultValue : AlbumType := .Album

/-- `impl From<aspotify::AlbumType> for AlbumType` (database.rs 307-315). -/
def AlbumType.fromS : SAlbumType → AlbumType
  | .album => .Album
  | .single => .Single
  | .compilation => .Compilation

/-- `aspotify::Image`: url plus optional dimensions. -/
structure SImage where
  url : String
  width : Option Nat
  height : Option Nat

/-- The domain `Image`. -/
structure Image where
  url : String
  width : Option Nat
  height : Option Nat

/-- `impl From<aspotify::Image> for Image` (database.rs 363-371). -/
def Image.fromS (image : SImage) : Image :=
  { url := image.url, width := image.width, height := image.height }

/-- `aspotify::ArtistSimplified`: the fields the reviewed file reads. -/
structure ArtistSimplified where
  id : Option String
  name : String

/-- `aspotify::Artist` (full DTO): id is always present. -/
structure SArtist where
  id : String
  name : String
  images : List SImage

/-- The domain `Artist`. -/
structure Artist where
  id : String
  name : String
  images : List Image

/-- Collect an `Option`-valued conversion over a list: `none` as soon as any
element's conversion is `none` (the `Option` image of a Rust
`map(...).collect()` whose element conversion may panic). -/
def collectSome {A B : Type} (f : A → Option B) : List A → Option (List B)
  | [] => some []
  | x :: xs =>
    match f x, collectSome f xs with
    | some y, some ys => some (y :: ys)
    | _, _ => none

/-- `impl From<aspotify::ArtistSimplified> for Artist` (database.rs 234-242):
`artist.id.unwrap()` panics when the id is absent, modelled as `none`. -/
def Artist.fromSimplified (artist : ArtistSimplified) : Option Artist :=
  match artist.id with
  | none => none
  | some id => some { id := id, name := artist.name, images := [] }

/-- `impl From<aspotify::Artist> for Artist` (database.rs 244-252). -/
def Artist.fromFull (artist : SArtist) : Artist :=
  { id := artist.id, name := artist.name, images := artist.images.map Image.fromS }

/-- `aspotify::AlbumSimplified`: the fields the reviewed file reads. -/
structure AlbumSimplified where
  album_type : Option SAlbumType
  artists : List ArtistSimplified
  id : Option String
  images : List SImage
  name : String
  release_date : Option String
  release_date_precision : Option String

/-- `aspotify::TrackSimplified`: the fields the reviewed file reads. -/
structure TrackSimplified where
  artists : List ArtistSimplified
  disc_number : Nat
  duration : Nat
  explicit : Bool
  id : Option String
  is_local : Bool
  name : String
  track_number : Nat

/-- `aspotify::Album` (full DTO): the fields the reviewed file reads. -/
structure SAlbum where
  album_type : SAlbumType
  artists : List ArtistSimplified
  genres : List String
  id : String
  images : List SImage
  name : String
  release_date : String
  release_date_precision : String
  tracks : Page TrackSimplified

/-- `aspotify::Track` (full DTO): the fields the reviewed file reads. -/
structure STrack where
  album : AlbumSimplified
  artists : List ArtistSimplified
  disc_number : Nat
  duration : Nat
  explicit : Bool
  id : Option String
  is_local : Bool
  is_playable : Option Bool
  name : String
  popularity : Nat
  track_number : Nat

mutual

/-- The domain `Album`.  Mutually recursive with `Track` because a full album
carries its tracks and a full track carries its album. -/
inductive Album : Type where
  | mk
    (album_type : AlbumType)
    (artists : List Artist)
    (id : String)
    (images : List Image)
    (name : String)
    (release_date : Option String)
    (release_date_precision : Option String)
    (genres : List String)
    (tracks : List Track) : Album

/-- The domain `Track`. -/
inductive Track : Type where
  | mk
    (album : Option Album)
    (artists : List Artist)
    (disc_number : Nat)
    (duration : Nat)
    (explicit : Bool)
    (id : Option String)
    (is_local : Bool)
    (is_playable : Option Bool)
    (name : String)
    (popularity : Option Nat)
    (track_number : Nat) : Track

end

def Album.album_type : Album → AlbumType
  | .mk x _ _ _ _ _ _ _ _ => x

def Album.genres : Album → List String
  | .mk _ _ _ _ _ _ _ x _ => x

def Album.tracks : Album → List Track
  | .mk _ _ _ _ _ _ _ _ x => x

/-- Replace only the `album_type` field of a domain album. -/
def Album.setType : Album → AlbumType → Album
  | .mk _ artists id images name rd rdp genres tracks, ty =>
    .mk ty artists id images name rd rdp genres tracks

def Track.album : Track → Option Album
  | .mk x _ _ _ _ _ _ _ _ _ _ => x

def Track.is_playable : Track → Option Bool
  | .mk _ _ _ _ _ _ _ x _ _ _ => x

def Track.popularity : Track → Option Nat
  | .mk _ _ _ _ _ _ _ _ _ x _ => x

/-- `impl From<aspotify::AlbumSimplified> for Album` (database.rs 254-268):
`album.id.unwrap()` and the artist conversions may panic (`none`); a missing
album type falls back to the default; genres and tracks are left empty. -/
def Album.fromSimplified (album : AlbumSimplified) : Option Album :=
  match collectSome Artist.fromSimplified album.artists, album.id with
  | some artists, some id =>
    some (Album.mk
      ((album.album_type.map AlbumType.fromS).getD AlbumType.defaultValue)
      artists id (album.images.map Image.fromS) album.name
      album.release_date album.release_date_precision [] [])
  | _, _ => none

/-- `impl From<aspotify::TrackSimplified> for Track` (database.rs 317-333):
album, playability and popularity are not populated. -/
def Track.fromSimplified (track : TrackSimplified) : Option Track :=
  match collectSome Artist.fromSimplified track.artists with
  | some artists =>
    some (Track.mk none artists track.disc_number track.duration
      track.explicit track.id track.is_local none track.name none
      track.track_number)
  | none => none

/-- `impl From<aspotify::Album> for Album` (database.rs 270-289): genres are
copied and the embedded simplified tracks are converted element-wise. -/
def Album.fromFull (album : SAlbum) : Option Album :=
  match collectSome Artist.fromSimplified album.artists,
      collectSome Track.fromSimplified album.tracks.items with
  | some artists, some tracks =>
    some (Album.mk (AlbumType.fromS album.album_type) artists album.id
      (album.images.map Image.fromS) album.name (some album.release_date)
      (some album.release_date_precision) album.genres tracks)
  | _, _ => none

/-- `impl From<aspotify::Track> for Track` (database.rs 335-351): the
simplified album is converted and wrapped in `Some`, playability is copied,
popularity is wrapped in `Some`. -/
def Track.fromFull (track : STrack) : Option Track :=
  match Album.fromSimplified track.album,
      collectSome Artist.fromSimplified track.artists with
  | some album, some artists =>
    some (Track.mk (some album) artists track.disc_number track.duration
      track.explicit track.id track.is_local track.is_playable track.name
      (some track.popularity) track.track_number)
  | _, _ => none

/-- Concrete witness DTOs for the simplified/full field claims. -/
def tsW : TrackSimplified :=
  { artists := [], disc_number := 1, duration := 1000, explicit := false,
    id := some "t", is_local := false, name := "nm", track_number := 1 }

def alsW : AlbumSimplified :=
  { album_type := none, artists := [], id := some "i", images := [],
    name := "n", release_date := none, release_date_precision := none }

def tfW : STrack :=
  { album := alsW, artists := [], disc_number := 1, duration := 1000,
    explicit := false, id := some "t", is_local := false,
    is_playable := some true, name := "nm", popularity := 77,
    track_number := 1 }

def alfW : SAlbum :=
  { album_type := SAlbumType.album, artists := [], genres := ["rock"],
    id := "i", images := [], name := "n", release_date := "2020",
    release_date_precision := "year",
    tracks := { items := [], total := 0, limit := 50, offset := 0 } }

/-- An album DTO whose own id is present but whose artist list contains an
artist without an id. -/
def badAlbum : AlbumSimplified :=
  { album_type := none, artists := [{ id := none, name := "a" }],
    id := some "x", images := [], name := "n", release_date := none,
    release_date_precision := none }

/-- `aspotify::Episode`: opaque here, the reviewed file never reads it. -/
structure SEpisode where
  id : String

/-- `aspotify::PlaylistItemType`: a playlist item is a track or an episode. -/
inductive PlaylistItemType where
  | track (track : STrack)
  | episode (episode : SEpisode)

/-- `aspotify::PlaylistItem`: the field the reviewed file reads. -/
structure PlaylistItem where
  item : PlaylistItemType

def PlaylistItem.isEpisode (it : PlaylistItem) : Bool :=
  match it.item with
  | .track _ => false
  | .episode _ => true

/-- The item-mapping closure of `Web::load_playlist_tracks` (database.rs
136-139): a track item is converted with `Track::from`, an episode item hits
`unimplemented!` (modelled as `none`; a failing track conversion is likewise
a panic, hence also `none`). -/
def playlistItemToTrack (it : PlaylistItem) : Option Track :=
  match it.item with
  | .track track => Track.fromFull track
  | .episode _ => none

/-- `Web::load_playlist_tracks` (database.rs 128-143): paginate over the
playlist's items, converting each one. -/
def load_playlist_tracks (fetch : Nat → Nat → Option (Page PlaylistItem))
    (fuel : Nat) : PagingOutcome (Option Track) :=
  with_paging fetch playlistItemToTrack fuel

/-- A playlist item that is an episode, and a page source serving it. -/
def epItem : PlaylistItem := { item := .episode { id := "e" } }

def epFetch : Nat → Nat → Option (Page PlaylistItem) :=
  fun l o => some ⟨[epItem], 1, l, o⟩

/-- Opaque stand-in for `aspotify::Error`. -/
structure AspotifyError where
  msg : String

/-- Opaque stand-in for `reqwest::Error`. -/
structure ReqwestError where
  msg : String

/-- Opaque stand-in for `image::ImageError`. -/
structure ImageError where
  msg : String

/-- Opaque stand-in for the token provider's error type. -/
structure TokenError where
  msg : String

/-- The possible boxed causes stored inside the web-api error variant. -/
inductive ErrorCause where
  | aspotify (e : AspotifyError)
  | reqwest (e : ReqwestError)
  | image (e : ImageError)
  | token (e : TokenError)

/-- Modelled from the spec: the application error type (`error` module, not
part of the reviewed file) has a single opaque "Web API error" variant
carrying the boxed underlying cause; `other` stands for any further variants
the application defines elsewhere, which this module never produces. -/
inductive Error where
  | WebApiError (cause : ErrorCause)
  | other (msg : String)

def Error.isWebApiError : Error → Bool
  | .WebApiError _ => true
  | .other _ => false

/-- `impl From<aspotify::Error> for Error` (database.rs 396-400). -/
def Error.fromAspotify (e : AspotifyError) : Error :=
  .WebApiError (.aspotify e)

/-- `impl From<reqwest::Error> for Error` (database.rs 402-406). -/
def Error.fromReqwest (e : ReqwestError) : Error :=
  .WebApiError (.reqwest e)

/-- `impl From<image::ImageError> for Error` (database.rs 408-412). -/
def Error.fromImage (e : ImageError) : Error :=
  .WebApiError (.image e)

/-- A token as handed out by `psst_core`'s `TokenProvider`: the reviewed file
reads its `token` and `expires` fields (the expiry instant is modelled as a
number). -/
structure AccessToken where
  token : String
  expires : Nat

/-- `aspotify::AccessToken` as constructed by the reviewed file. -/
structure ClientAccessToken where
  token : String
  expires : Nat
  refresh_token : Option String

/-- The only mutable credential state of the wrapped client that the
reviewed file touches: its current access token. -/
structure ClientState where
  current_access_token : Option ClientAccessToken

/-- `Web::client` (database.rs 35-48).  `token_provider` stands for
`self.token_provider.get(&self.session)` applied to the session; the token
error is wrapped into the web-api error variant; on success the acquired
token (with its expiry and no refresh token) is stored as the client's
current access token via `set_current_access_token` and the client handle is
returned (modelled as `ok ()` together with the updated state). -/
def Web.client {S : Type} (token_provider : S → Except TokenError AccessToken)
    (session : S) (spotify : ClientState) : Except Error Unit × ClientState :=
  match token_provider session with
  | .error err => (.error (.WebApiError (.token err)), spotify)
  | .ok access_token =>
    (.ok (),
      { current_access_token :=
          some { token := access_token.token,
                 expires := access_token.expires,
                 refresh_token := none } })

/-- `aspotify::ItemType`. -/
inductive ItemType where
  | album
  | artist
  | playlist
  | track
  | show
  | episode

/-- `aspotify::SearchResults`: the categories the reviewed file reads; each
category page is absent when the category was not part of the response. -/
structure SearchResults where
  artists : Option (Page SArtist)
  albums : Option (Page AlbumSimplified)
  tracks : Option (Page STrack)

/-- The parameters of one call to `aspotify`'s `search` endpoint as issued by
`Web::search` (`ext_flag` models the `include_external` argument). -/
structure SearchRequest where
  query : String
  types : List ItemType
  ext_flag : Bool
  limit : Nat
  offset : Nat

/-- The one request `Web::search` issues for a query (database.rs 188-197):
types Artist, Album, Track, `include_external = false`, limit 25, offset 0. -/
def searchRequest (query : String) : SearchRequest :=
  { query := query, types := [.artist, .album, .track], ext_flag := false,
    limit := 25, offset := 0 }

/-- `Web::search` (database.rs 180-219).  `api` stands for the authenticated
client's search endpoint (`none` covering both a failed client accessor and a
failed request); each absent category yields an empty vector
(`map_or_else(Vec::new, |page| page.items)`), each present one is converted
element-wise (fallible track/album conversions model conversion panics). -/
def Web.search (api : SearchRequest → Option SearchResults) (query : String) :
    Option (List Artist × List (Option Album) × List (Option Track)) :=
  match api (searchRequest query) with
  | none => none
  | some results =>
    some
      ((match results.artists with
        | none => []
        | some page => page.items).map Artist.fromFull,
      (match results.albums with
        | none => []
        | some page => page.items).map Album.fromSimplified,
      (match results.tracks with
        | none => []
        | some page => page.items).map Track.fromFull)

/-- A mock search api: one artist hit, no album page, no track page. -/
def searchApiW : SearchRequest → Option SearchResults :=
  fun _ => some { artists := some ⟨[{ id := "a", name := "nm", images := [] }], 1, 25, 0⟩,
                  albums := none, tracks := none }

lemma with_paging.go_consistent {U T : Type} (fetch : Nat → Nat → Option (Page U))
    (map_fn : U → T) (total : Nat)
    (hc : ∀ l o, ∃ page, fetch l o = some page ∧ page.total = total ∧
      page.limit = l ∧ page.offset = o ∧ page.items.length = min l (total - o)) :
    ∀ fuel offset results, List.length results = offset → offset ≤ total →
      total - offset < fuel →
      ∃ res, with_paging.go fetch map_fn fuel 50 offset results = .ok res ∧
        res.length = total := by
  intro fuel
  induction fuel with
  | zero => intro offset results _ _ h; omega
  | succ fuel ih =>
    intro offset results hlen hle hfuel
    obtain ⟨page, hp, hptot, hplim, hpoff, hpitems⟩ := hc 50 offset
    by_cases hcont : page.total > (results ++ page.items.map map_fn).length
    · have hlen' : (results ++ page.items.map map_fn).length = offset + min 50 (total - offset) := by
        simp [hlen, hpitems]
      have hmin : min 50 (total - offset) = 50 := by
        rw [hptot, hlen'] at hcont
        omega
      obtain ⟨res, hres, hreslen⟩ :=
        ih (offset + 50) (results ++ page.items.map map_fn)
          (by omega) (by rw [hptot, hlen', hmin] at hcont; omega)
          (by rw [hptot, hlen', hmin] at hcont; omega)
      refine ⟨res, ?_, hreslen⟩
      rw [with_paging.go, hp]
      simp only [hcont, if_pos]
      rw [hplim, hpoff]
      exact hres
    · refine ⟨results ++ page.items.map map_fn, ?_, ?_⟩
      · rw [with_paging.go, hp]
        exact if_neg hcont
      · have hlen' : (results ++ page.items.map map_fn).length = offset + min 50 (total - offset) := by
          simp [hlen, hpitems]
        rw [hptot, hlen'] at hcont
        omega

lemma with_paging.go_ok_eq {U T : Type} (fetch : Nat → Nat → Option (Page U))
    (map_fn : U → T) :
    ∀ (fuel limit offset : Nat) (results res : List T),
      with_paging.go fetch map_fn fuel limit offset results = .ok res →
      res = results ++
        (with_paging.trace fetch map_fn fuel limit offset results).flatMap
          (fun e => e.page.items.map map_fn) := by
  intro fuel
  induction fuel with
  | zero => intro l o results res h; simp [with_paging.go] at h
  | succ fuel ih =>
    intro l o results res h
    rw [with_paging.go] at h
    rw [with_paging.trace]
    cases hp : fetch l o with
    | none => rw [hp] at h; simp at h
    | some page =>
      rw [hp] at h
      simp only at h ⊢
      by_cases hcont : page.total > (results ++ page.items.map map_fn).length
      · rw [if_pos hcont] at h
        rw [if_pos hcont]
        have := ih page.limit (page.offset + page.limit)
          (results ++ page.items.map map_fn) res h
        rw [this]
        simp
      · rw [if_neg hcont] at h
        rw [if_neg hcont]
        cases h
        simp

lemma with_paging.trace_get_zero {U T : Type} (fetch : Nat → Nat → Option (Page U))
    (map_fn : U → T) (fuel limit offset : Nat) (results : List T)
    (e : TraceEntry U T)
    (h : (with_paging.trace fetch map_fn fuel limit offset results).get? 0 = some e) :
    e.reqLimit = limit ∧ e.reqOffset = offset ∧ fetch limit offset = some e.page ∧
      e.resultsAfter = results ++ e.page.items.map map_fn := by
  cases fuel with
  | zero => simp [with_paging.trace] at h
  | succ fuel =>
    rw [with_paging.trace] at h
    cases hp : fetch limit offset with
    | none => rw [hp] at h; simp at h
    | some page =>
      rw [hp] at h
      simp only [List.get?_cons_zero, Option.some_inj] at h
      subst h
      exact ⟨rfl, rfl, rfl, rfl⟩

lemma with_paging.go_ok_trace_ne {U T : Type} (fetch : Nat → Nat → Option (Page U))
    (map_fn : U → T) (fuel limit offset : Nat) (results res : List T)
    (h : with_paging.go fetch map_fn fuel limit offset results = .ok res) :
    with_paging.trace fetch map_fn fuel limit offset results ≠ [] := by
  cases fuel with
  | zero => simp [with_paging.go] at h
  | succ fuel =>
    rw [with_paging.go] at h
    rw [with_paging.trace]
    cases hp : fetch limit offset with
    | none => rw [hp] at h; simp at h
    | some page => rw [hp] at h; simp

/-- C1: for every page source whose totals, limits and offsets are mutually
consistent (every page reports the same `total`, echoes the requested limit
and offset, and carries `min limit (total - offset)` items), `with_paging`
terminates (any fuel above `total` suffices) and returns exactly `total`
mapped items, namely the mapped items of the fetched pages in order. -/
theorem with_paging_consistent_returns_total {U T : Type}
    (fetch : Nat → Nat → Option (Page U)) (map_fn : U → T) (total fuel : Nat)
    (hc : ∀ l o, ∃ page, fetch l o = some page ∧ page.total = total ∧
      page.limit = l ∧ page.offset = o ∧ page.items.length = min l (total - o))
    (hfuel : total < fuel) :
    ∃ res, with_paging fetch map_fn fuel = .ok res ∧ res.length = total ∧
      res = (with_paging.trace fetch map_fn fuel 50 0 []).flatMap
        (fun e => e.page.items.map map_fn) := by
  obtain ⟨res, hres, hlen⟩ := with_paging.go_consistent fetch map_fn total hc
    fuel 0 [] rfl (Nat.zero_le _) (by omega)
  refine ⟨res, hres, hlen, ?_⟩
  simpa using with_paging.go_ok_eq fetch map_fn fuel 50 0 [] res hres

theorem with_paging_consistent_returns_total_witness :
    ∃ res, with_paging (mockFetch 120) (fun u : Nat => u) 121 = .ok res ∧
      res.length = 120 ∧
      res = (with_paging.trace (mockFetch 120) (fun u : Nat => u) 121 50 0 []).flatMap
        (fun e => e.page.items.map (fun u : Nat => u)) :=
  with_paging_consistent_returns_total (mockFetch 120) (fun u : Nat => u) 120 121
    (fun l o => ⟨⟨List.range (min l (120 - o)), 120, l, o⟩, rfl, rfl, rfl, rfl,
      List.length_range _⟩)
    (by omega)

lemma with_paging.reqs_get_zero {U T : Type} (fetch : Nat → Nat → Option (Page U))
    (map_fn : U → T) (fuel limit offset : Nat) (results : List T)
    (hfuel : 0 < fuel) :
    (with_paging.reqs fetch map_fn fuel limit offset results).get? 0 =
      some (limit, offset) := by
  cases fuel with
  | zero => omega
  | succ fuel => rw [with_paging.reqs]; rfl

/-- C2 counterexample: under `badFetch` the first request is (50, 0) and the
second request uses offset 7 + 50 = 57 (the code advances from the page's
reported offset), not 0 + 50 = 50 (the previous request's offset plus the
reported limit), so the claim as stated is false. -/
theorem offset_advance_claim_false :
    ¬ offsetAdvanceClaim badFetch (fun u : Nat => u) 2 := by
  intro h
  have h57 := h 0 50 0 50 57 ⟨[0], 100, 50, 7⟩ (by decide) (by decide) rfl
  exact absurd h57 (by decide)

/-- C2 amended: on every iteration of the loop that continues, the offset of
the next page request equals the fetched page's reported offset plus its
reported limit (and the next limit is the page's reported limit). -/
theorem with_paging_offset_advance {U T : Type}
    (fetch : Nat → Nat → Option (Page U)) (map_fn : U → T) :
    ∀ (fuel limit offset : Nat) (results : List T) (i l1 o1 l2 o2 : Nat),
      (with_paging.reqs fetch map_fn fuel limit offset results).get? i =
        some (l1, o1) →
      (with_paging.reqs fetch map_fn fuel limit offset results).get? (i + 1) =
        some (l2, o2) →
      ∃ page, fetch l1 o1 = some page ∧ l2 = page.limit ∧
        o2 = page.offset + page.limit := by
  intro fuel
  induction fuel with
  | zero =>
    intro l o results i l1 o1 l2 o2 h1 _
    simp [with_paging.reqs] at h1
  | succ fuel ih =>
    intro l o results i l1 o1 l2 o2 h1 h2
    rw [with_paging.reqs] at h1 h2
    cases i with
    | zero =>
      simp only [List.get?_cons_zero, Option.some_inj, Prod.mk.injEq] at h1
      obtain ⟨rfl, rfl⟩ := h1
      rw [List.get?_cons_succ] at h2
      cases hp : fetch l o with
      | none => rw [hp] at h2; simp at h2
      | some page =>
        rw [hp] at h2
        simp only at h2
        by_cases hcont : page.total > (results ++ page.items.map map_fn).length
        · rw [if_pos hcont] at h2
          cases fuel with
          | zero => simp [with_paging.reqs] at h2
          | succ fuel' =>
            rw [with_paging.reqs] at h2
            simp only [List.get?_cons_zero, Option.some_inj, Prod.mk.injEq] at h2
            obtain ⟨rfl, rfl⟩ := h2
            exact ⟨page, rfl, rfl, rfl⟩
        · rw [if_neg hcont] at h2; simp at h2
    | succ i =>
      rw [List.get?_cons_succ] at h1 h2
      cases hp : fetch l o with
      | none => rw [hp] at h1; simp at h1
      | some page =>
        rw [hp] at h1 h2
        simp only at h1 h2
        by_cases hcont : page.total > (results ++ page.items.map map_fn).length
        · rw [if_pos hcont] at h1 h2
          exact ih page.limit (page.offset + page.limit)
            (results ++ page.items.map map_fn) i l1 o1 l2 o2 h1 h2
        · rw [if_neg hcont] at h1; simp at h1

theorem with_paging_offset_advance_witness :
    ∃ page, mockFetch 120 50 0 = some page ∧ 50 = page.limit ∧
      50 = page.offset + page.limit :=
  with_paging_offset_advance (mockFetch 120) (fun u : Nat => u) 3 50 0 [] 0
    50 0 50 50 (by decide) (by decide)

lemma with_paging.trace_chain {U T : Type} (fetch : Nat → Nat → Option (Page U))
    (map_fn : U → T) :
    ∀ (fuel limit offset : Nat) (results : List T) (i : Nat)
      (e e' : TraceEntry U T),
      (with_paging.trace fetch map_fn fuel limit offset results).get? i = some e →
      (with_paging.trace fetch map_fn fuel limit offset results).get? (i + 1) =
        some e' →
      e'.resultsAfter = e.resultsAfter ++ e'.page.items.map map_fn := by
  intro fuel
  induction fuel with
  | zero =>
    intro l o results i e e' h1 _
    simp [with_paging.trace] at h1
  | succ fuel ih =>
    intro l o results i e e' h1 h2
    rw [with_paging.trace] at h1 h2
    cases hp : fetch l o with
    | none => rw [hp] at h1; simp at h1
    | some page =>
      rw [hp] at h1 h2
      simp only at h1 h2
      cases i with
      | zero =>
        simp only [List.get?_cons_zero, Option.some_inj] at h1
        subst h1
        rw [List.get?_cons_succ] at h2
        by_cases hcont : page.total > (results ++ page.items.map map_fn).length
        · rw [if_pos hcont] at h2
          exact (with_paging.trace_get_zero fetch map_fn fuel page.limit
            (page.offset + page.limit) (results ++ page.items.map map_fn)
            e' h2).2.2.2
        · rw [if_neg hcont] at h2; simp at h2
      | succ i =>
        rw [List.get?_cons_succ] at h1 h2
        by_cases hcont : page.total > (results ++ page.items.map map_fn).length
        · rw [if_pos hcont] at h1 h2
          exact ih page.limit (page.offset + page.limit)
            (results ++ page.items.map map_fn) i e e' h1 h2
        · rw [if_neg hcont] at h1; simp at h1

lemma with_paging.trace_stop {U T : Type} (fetch : Nat → Nat → Option (Page U))
    (map_fn : U → T) :
    ∀ (fuel limit offset : Nat) (results res : List T) (i : Nat)
      (e : TraceEntry U T),
      with_paging.go fetch map_fn fuel limit offset results = .ok res →
      (with_paging.trace fetch map_fn fuel limit offset results).get? i = some e →
      ((with_paging.trace fetch map_fn fuel limit offset results).get? (i + 1) =
          none ↔
        e.page.total ≤ e.resultsAfter.length) := by
  intro fuel
  induction fuel with
  | zero =>
    intro l o results res i e hok _
    simp [with_paging.go] at hok
  | succ fuel ih =>
    intro l o results res i e hok he
    rw [with_paging.go] at hok
    rw [with_paging.trace] at he ⊢
    cases hp : fetch l o with
    | none => rw [hp] at hok; simp at hok
    | some page =>
      rw [hp] at hok he
      simp only at hok he ⊢
      by_cases hcont : page.total > (results ++ page.items.map map_fn).length
      · rw [if_pos hcont] at hok he ⊢
        cases i with
        | zero =>
          simp only [List.get?_cons_zero, Option.some_inj] at he
          subst he
          simp only [List.get?_cons_succ]
          constructor
          · intro h
            exact absurd (List.get?_eq_none.mp h)
              (by
                have hne := with_paging.go_ok_trace_ne fetch map_fn fuel
                  page.limit (page.offset + page.limit)
                  (results ++ page.items.map map_fn) res hok
                intro hlen
                exact hne (List.length_eq_zero.mp (Nat.le_zero.mp hlen)))
          · intro h
            exact absurd (Nat.lt_of_lt_of_le hcont h) (Nat.lt_irrefl _)
        | succ i =>
          rw [List.get?_cons_succ] at he
          rw [List.get?_cons_succ]
          exact ih page.limit (page.offset + page.limit)
            (results ++ page.items.map map_fn) res i e hok he
      · rw [if_neg hcont] at hok he ⊢
        cases i with
        | zero =>
          simp only [List.get?_cons_zero, Option.some_inj] at he
          subst he
          exact ⟨fun _ => Nat.le_of_not_lt hcont, fun _ => rfl⟩
        | succ i =>
          rw [List.get?_cons_succ] at he
          simp at he

/-- C3: every `with_paging` run issues its first page request with limit 50
and offset 0; in a run that completes normally, the result is the
concatenation, in order, of the mapped items of every fetched page (each
iteration appends its page's mapped items to the accumulated results), and an
iteration is the last one exactly when the page's reported total is at most
the accumulated item count after appending. -/
theorem with_paging_start_append_stop {U T : Type}
    (fetch : Nat → Nat → Option (Page U)) (map_fn : U → T) (fuel : Nat)
    (res : List T) :
    (0 < fuel →
      (with_paging.reqs fetch map_fn fuel 50 0 []).get? 0 = some (50, 0)) ∧
    (with_paging fetch map_fn fuel = .ok res →
      res = (with_paging.trace fetch map_fn fuel 50 0 []).flatMap
          (fun e => e.page.items.map map_fn) ∧
      (∀ i e e',
        (with_paging.trace fetch map_fn fuel 50 0 []).get? i = some e →
        (with_paging.trace fetch map_fn fuel 50 0 []).get? (i + 1) = some e' →
        e'.resultsAfter = e.resultsAfter ++ e'.page.items.map map_fn) ∧
      (∀ i e,
        (with_paging.trace fetch map_fn fuel 50 0 []).get? i = some e →
        ((with_paging.trace fetch map_fn fuel 50 0 []).get? (i + 1) = none ↔
          e.page.total ≤ e.resultsAfter.length))) := by
  constructor
  · intro hf
    exact with_paging.reqs_get_zero fetch map_fn fuel 50 0 [] hf
  · intro hok
    refine ⟨by simpa using with_paging.go_ok_eq fetch map_fn fuel 50 0 [] res hok,
      ?_, ?_⟩
    · intro i e e' h1 h2
      exact with_paging.trace_chain fetch map_fn fuel 50 0 [] i e e' h1 h2
    · intro i e h1
      exact with_paging.trace_stop fetch map_fn fuel 50 0 [] res i e hok h1

theorem with_paging_start_append_stop_witness :
    (with_paging.reqs (mockFetch 3) (fun u : Nat => u) 1 50 0 []).get? 0 =
      some (50, 0) ∧
    [0, 1, 2] = (with_paging.trace (mockFetch 3) (fun u : Nat => u) 1 50 0 []).flatMap
        (fun e => e.page.items.map (fun u : Nat => u)) := by
  obtain ⟨h1, h2⟩ :=
    with_paging_start_append_stop (mockFetch 3) (fun u : Nat => u) 1 [0, 1, 2]
  exact ⟨h1 (by decide), (h2 rfl).1⟩

lemma Artist.fromSimplified_isSome (a : ArtistSimplified) :
    (Artist.fromSimplified a).isSome = a.id.isSome := by
  cases h : a.id <;> simp [Artist.fromSimplified, h]

lemma collectSome_isSome {A B : Type} (f : A → Option B) :
    ∀ xs : List A,
      (collectSome f xs).isSome = true ↔ ∀ x ∈ xs, (f x).isSome = true := by
  intro xs
  induction xs with
  | nil => simp [collectSome]
  | cons x xs ih =>
    rw [collectSome]
    cases hfx : f x with
    | none =>
      constructor
      · intro h; simp at h
      · intro h
        have := h x (List.mem_cons_self x xs)
        rw [hfx] at this
        simp at this
    | some y =>
      cases hxs : collectSome f xs with
      | none =>
        constructor
        · intro h; simp at h
        · intro h
          have := ih.mpr fun z hz => h z (List.mem_cons_of_mem x hz)
          rw [hxs] at this
          simp at this
      | some ys =>
        constructor
        · intro _ z hz
          rcases List.mem_cons.mp hz with rfl | hz'
          · rw [hfx]; rfl
          · exact ih.mp (by rw [hxs]; rfl) z hz'
        · intro _; rfl

/-- C4: converting a simplified album DTO sets the domain `album_type` to the
converted DTO album type when present and to `Album` (the default) when
absent, and no other field of the result depends on the DTO's album-type
field (erasing the album type of the results of converting two DTOs that
differ only in their album-type field yields equal values). -/
theorem album_simplified_album_type (a : AlbumSimplified) :
    (∀ r, Album.fromSimplified a = some r →
      r.album_type = match a.album_type with
        | some t => AlbumType.fromS t
        | none => AlbumType.Album) ∧
    (∀ t₁ t₂ : Option SAlbumType,
      (Album.fromSimplified { a with album_type := t₁ }).map
          (fun r => r.setType AlbumType.Album) =
        (Album.fromSimplified { a with album_type := t₂ }).map
          (fun r => r.setType AlbumType.Album)) := by
  constructor
  · intro r hr
    rw [Album.fromSimplified] at hr
    cases h1 : collectSome Artist.fromSimplified a.artists with
    | none => rw [h1] at hr; simp at hr
    | some artists =>
      cases h2 : a.id with
      | none => rw [h1, h2] at hr; simp at hr
      | some id =>
        rw [h1, h2] at hr
        simp only [Option.some_inj] at hr
        subst hr
        cases ht : a.album_type <;> rfl
  · intro t₁ t₂
    cases h1 : collectSome Artist.fromSimplified a.artists <;>
      cases h2 : a.id <;>
        simp [Album.fromSimplified, h1, h2, Album.setType]

theorem album_simplified_album_type_witness :
    (Album.mk AlbumType.Single [] "i" [] "n" none none [] []).album_type =
      AlbumType.Single ∧
    (Album.fromSimplified
        { album_type := none, artists := [], id := some "i", images := [],
          name := "n", release_date := none, release_date_precision := none }).map
        (fun r => r.setType AlbumType.Album) =
      (Album.fromSimplified
        { album_type := some SAlbumType.single, artists := [], id := some "i",
          images := [], name := "n", release_date := none,
          release_date_precision := none }).map
        (fun r => r.setType AlbumType.Album) := by
  have h := album_simplified_album_type
    { album_type := some SAlbumType.single, artists := [], id := some "i",
      images := [], name := "n", release_date := none,
      release_date_precision := none }
  exact ⟨h.1 (Album.mk AlbumType.Single [] "i" [] "n" none none [] []) rfl,
    h.2 none (some SAlbumType.single)⟩

/-- C5: simplified-DTO conversions leave the full-only fields unpopulated
(track: album, popularity, playability; album: genres, tracks), while the
full-DTO conversions populate them from the source (popularity wrapped in
`some`, playability copied, album converted and wrapped in `some`, genres
copied, embedded tracks converted element-wise). -/
theorem simplified_vs_full_fields (ts : TrackSimplified) (tf : STrack)
    (als : AlbumSimplified) (alf : SAlbum) :
    (∀ r, Track.fromSimplified ts = some r →
      r.album = none ∧ r.popularity = none ∧ r.is_playable = none) ∧
    (∀ r, Album.fromSimplified als = some r → r.genres = [] ∧ r.tracks = []) ∧
    (∀ r, Track.fromFull tf = some r →
      r.popularity = some tf.popularity ∧ r.is_playable = tf.is_playable ∧
      ∃ alb, Album.fromSimplified tf.album = some alb ∧ r.album = some alb) ∧
    (∀ r, Album.fromFull alf = some r →
      r.genres = alf.genres ∧
      collectSome Track.fromSimplified alf.tracks.items = some r.tracks) := by
  refine ⟨?_, ?_, ?_, ?_⟩
  · intro r hr
    rw [Track.fromSimplified] at hr
    cases h1 : collectSome Artist.fromSimplified ts.artists with
    | none => rw [h1] at hr; simp at hr
    | some artists =>
      rw [h1] at hr
      simp only [Option.some_inj] at hr
      subst hr
      exact ⟨rfl, rfl, rfl⟩
  · intro r hr
    rw [Album.fromSimplified] at hr
    cases h1 : collectSome Artist.fromSimplified als.artists with
    | none => rw [h1] at hr; simp at hr
    | some artists =>
      cases h2 : als.id with
      | none => rw [h1, h2] at hr; simp at hr
      | some id =>
        rw [h1, h2] at hr
        simp only [Option.some_inj] at hr
        subst hr
        exact ⟨rfl, rfl⟩
  · intro r hr
    rw [Track.fromFull] at hr
    cases h1 : Album.fromSimplified tf.album with
    | none => rw [h1] at hr; simp at hr
    | some alb =>
      cases h2 : collectSome Artist.fromSimplified tf.artists with
      | none => rw [h1, h2] at hr; simp at hr
      | some artists =>
        rw [h1, h2] at hr
        simp only [Option.some_inj] at hr
        subst hr
        exact ⟨rfl, rfl, alb, rfl, rfl⟩
  · intro r hr
    rw [Album.fromFull] at hr
    cases h1 : collectSome Artist.fromSimplified alf.artists with
    | none => rw [h1] at hr; simp at hr
    | some artists =>
      cases h2 : collectSome Track.fromSimplified alf.tracks.items with
      | none => rw [h1, h2] at hr; simp at hr
      | some tracks =>
        rw [h1, h2] at hr
        simp only [Option.some_inj] at hr
        subst hr
        exact ⟨rfl, rfl⟩

theorem simplified_vs_full_fields_witness :
    (∃ r, Track.fromSimplified tsW = some r ∧
      r.album = none ∧ r.popularity = none ∧ r.is_playable = none) ∧
    (∃ r, Track.fromFull tfW = some r ∧
      r.popularity = some 77 ∧ r.is_playable = some true) ∧
    (∃ r, Album.fromFull alfW = some r ∧
      r.genres = ["rock"] ∧ r.tracks = []) := by
  obtain ⟨h1, h2, h3, h4⟩ := simplified_vs_full_fields tsW tfW alsW alfW
  refine ⟨⟨_, rfl, h1 _ rfl⟩, ⟨_, rfl, ?_⟩, ⟨_, rfl, ?_, ?_⟩⟩
  · obtain ⟨hpop, hplay, _⟩ := h3 _ rfl
    exact ⟨hpop, hplay⟩
  · exact (h4 _ rfl).1
  · obtain ⟨_, htr⟩ := h4 _ rfl
    simp only [collectSome] at htr
    exact (Option.some_inj.mp htr).symm

/-- C6 counterexample: `badAlbum` has its id present, yet the conversion
fails (the embedded artist conversion hits `unwrap` on a missing artist id),
so "the conversion succeeds iff the DTO's id is present" is false. -/
theorem album_success_iff_id_false :
    ¬ (((Album.fromSimplified badAlbum).isSome = true) ↔
        badAlbum.id.isSome = true) := by
  decide

/-- C6 amended: the simplified-artist conversion succeeds iff the artist id
is present; the simplified-album conversion succeeds iff the album id and
the ids of all listed artists are present (when any required id is absent
the conversion hits the panicking `unwrap` branch, modelled as `none`). -/
theorem conversion_success_iff_ids_present (ar : ArtistSimplified)
    (al : AlbumSimplified) :
    ((Artist.fromSimplified ar).isSome = true ↔ ar.id.isSome = true) ∧
    ((Album.fromSimplified al).isSome = true ↔
      (al.id.isSome = true ∧ ∀ a ∈ al.artists, a.id.isSome = true)) := by
  constructor
  · rw [Artist.fromSimplified_isSome]
  · cases h1 : collectSome Artist.fromSimplified al.artists with
    | none =>
      have hall := collectSome_isSome Artist.fromSimplified al.artists
      rw [h1] at hall
      simp only [Artist.fromSimplified_isSome] at hall
      simp only [Album.fromSimplified, h1]
      simp only [Option.isSome_none, Bool.false_eq_true, false_iff]
      intro hcon
      have := hall.mpr hcon.2
      simp at this
    | some artists =>
      have hall : ∀ a ∈ al.artists, a.id.isSome = true := by
        have := (collectSome_isSome Artist.fromSimplified al.artists).mp
          (by rw [h1]; rfl)
        simpa [Artist.fromSimplified_isSome] using this
      cases h2 : al.id with
      | none => simp [Album.fromSimplified, h1, h2]
      | some i =>
        simp only [Album.fromSimplified, h1, h2]
        simp only [Option.isSome_some, true_iff, true_and]
        exact hall

theorem conversion_success_iff_ids_present_witness :
    ((Artist.fromSimplified { id := some "a", name := "nm" }).isSome = true) ∧
    ((Album.fromSimplified alsW).isSome = true) := by
  obtain ⟨h1, h2⟩ := conversion_success_iff_ids_present
    { id := some "a", name := "nm" } alsW
  exact ⟨h1.mpr rfl, h2.mpr ⟨rfl, by intro a ha; simp [alsW] at ha⟩⟩

/-- C9: in a completed `load_playlist_tracks` run, if any fetched playlist
item is an episode the run hits the `unimplemented!` panic (a `none` marker
appears among the results) rather than producing a value for it, and a run
whose results contain no panic marker fetched no episode item at all. -/
theorem load_playlist_tracks_episode_unimpl
    (fetch : Nat → Nat → Option (Page PlaylistItem)) (fuel : Nat)
    (res : List (Option Track))
    (hok : load_playlist_tracks fetch fuel = .ok res) :
    ((∃ e ∈ with_paging.trace fetch playlistItemToTrack fuel 50 0 [],
        ∃ it ∈ e.page.items, it.isEpisode = true) → none ∈ res) ∧
    (none ∉ res →
      ∀ e ∈ with_paging.trace fetch playlistItemToTrack fuel 50 0 [],
        ∀ it ∈ e.page.items, it.isEpisode = false) := by
  have hres : res = (with_paging.trace fetch playlistItemToTrack fuel
      50 0 []).flatMap (fun e => e.page.items.map playlistItemToTrack) := by
    simpa using with_paging.go_ok_eq fetch playlistItemToTrack fuel 50 0 []
      res hok
  have hkey : ∀ e ∈ with_paging.trace fetch playlistItemToTrack fuel 50 0 [],
      ∀ it ∈ e.page.items, it.isEpisode = true → none ∈ res := by
    intro e he it hit hep
    rw [hres, List.mem_flatMap]
    refine ⟨e, he, ?_⟩
    rw [List.mem_map]
    refine ⟨it, hit, ?_⟩
    rw [PlaylistItem.isEpisode] at hep
    rw [playlistItemToTrack]
    cases h : it.item with
    | track t => rw [h] at hep; simp at hep
    | episode ep => rfl
  refine ⟨fun ⟨e, he, it, hit, hep⟩ => hkey e he it hit hep,
    fun hnone e he it hit => ?_⟩
  by_contra hep
  rw [Bool.not_eq_false] at hep
  exact hnone (hkey e he it hit hep)

theorem load_playlist_tracks_episode_unimpl_witness :
    load_playlist_tracks epFetch 1 = .ok [none] ∧
    none ∈ ([none] : List (Option Track)) := by
  refine ⟨rfl, (load_playlist_tracks_episode_unimpl epFetch 1 [none] rfl).1 ?_⟩
  exact ⟨⟨50, 0, ⟨[epItem], 1, 50, 0⟩, [none]⟩, List.mem_singleton.mpr rfl,
    epItem, List.mem_singleton.mpr rfl, rfl⟩

/-- C7: every failure this module produces — the three `From` conversions
used by the `?` operator for the wrapped API client, HTTP transport and
image decoding, and the explicitly mapped token-acquisition error in
`Web::client` — is the single `WebApiError` variant carrying the underlying
cause; no other error variant is ever produced. -/
theorem error_wrapping_single_variant (ea : AspotifyError) (er : ReqwestError)
    (ei : ImageError) (et : TokenError) (st : ClientState) :
    Error.fromAspotify ea = .WebApiError (.aspotify ea) ∧
    Error.fromReqwest er = .WebApiError (.reqwest er) ∧
    Error.fromImage ei = .WebApiError (.image ei) ∧
    (Web.client (fun _ : Unit => Except.error et) () st).1 =
      .error (.WebApiError (.token et)) ∧
    (Error.fromAspotify ea).isWebApiError = true ∧
    (Error.fromReqwest er).isWebApiError = true ∧
    (Error.fromImage ei).isWebApiError = true :=
  ⟨rfl, rfl, rfl, rfl, rfl, rfl, rfl⟩

/-- C8: the authenticated-client accessor fails exactly when token
acquisition fails; on failure it returns the wrapped token error and leaves
the client's credential state unchanged, and on success it stores the
acquired token — with its expiry and no refresh token — as the client's
current access token and returns the handle. -/
theorem client_token_flow {S : Type}
    (token_provider : S → Except TokenError AccessToken) (session : S)
    (st : ClientState) :
    (∀ e, token_provider session = .error e →
      Web.client token_provider session st =
        (.error (.WebApiError (.token e)), st)) ∧
    (∀ tok, token_provider session = .ok tok →
      Web.client token_provider session st =
        (.ok (),
          { current_access_token :=
              some { token := tok.token,
                     expires := tok.expires,
                     refresh_token := none } })) ∧
    ((∃ e, (Web.client token_provider session st).1 = .error e) ↔
      (∃ e, token_provider session = .error e)) := by
  refine ⟨?_, ?_, ?_⟩
  · intro e he
    rw [Web.client, he]
  · intro tok htok
    rw [Web.client, htok]
  · cases h : token_provider session with
    | error e =>
      constructor
      · intro _; exact ⟨e, rfl⟩
      · intro _; exact ⟨.WebApiError (.token e), by rw [Web.client, h]⟩
    | ok tok =>
      constructor
      · rintro ⟨e, he⟩
        rw [Web.client, h] at he
        simp at he
      · rintro ⟨e, he⟩
        simp at he

theorem client_token_flow_witness :
    Web.client (fun _ : Unit => Except.error { msg := "boom" }) ()
        { current_access_token := none } =
      (.error (.WebApiError (.token { msg := "boom" })),
        { current_access_token := none }) ∧
    Web.client (fun _ : Unit => Except.ok { token := "tok", expires := 5 }) ()
        { current_access_token := none } =
      (.ok (),
        { current_access_token :=
            some { token := "tok", expires := 5, refresh_token := none } }) := by
  refine ⟨?_, ?_⟩
  · exact (client_token_flow (fun _ : Unit => Except.error { msg := "boom" })
      () { current_access_token := none }).1 { msg := "boom" } rfl
  · exact (client_token_flow (fun _ : Unit =>
        Except.ok { token := "tok", expires := 5 })
      () { current_access_token := none }).2.1 { token := "tok", expires := 5 } rfl

/-- C10: `Web::search` issues exactly one request — limit 25, offset 0, item
types Artist, Album and Track — and its output is determined by the api's
answer to that single request; every category page absent from the response
becomes an empty list, and every present page is mapped element-wise to
domain values. -/
theorem search_single_request_mapping
    (api : SearchRequest → Option SearchResults) (query : String) :
    (searchRequest query).limit = 25 ∧
    (searchRequest query).offset = 0 ∧
    (searchRequest query).types = [.artist, .album, .track] ∧
    (∀ api2 : SearchRequest → Option SearchResults,
      api (searchRequest query) = api2 (searchRequest query) →
      Web.search api query = Web.search api2 query) ∧
    (∀ res, api (searchRequest query) = some res →
      Web.search api query = some
        (((res.artists.map Page.items).getD []).map Artist.fromFull,
        ((res.albums.map Page.items).getD []).map Album.fromSimplified,
        ((res.tracks.map Page.items).getD []).map Track.fromFull)) := by
  refine ⟨rfl, rfl, rfl, ?_, ?_⟩
  · intro api2 hagree
    rw [Web.search, Web.search, hagree]
  · intro res hres
    obtain ⟨oa, ob, ot⟩ := res
    rw [Web.search, hres]
    cases oa <;> cases ob <;> cases ot <;> rfl

theorem search_single_request_mapping_witness :
    (searchRequest "q").limit = 25 ∧
    Web.search searchApiW "q" =
      some ([{ id := "a", name := "nm", images := [] }], [], []) := by
  obtain ⟨hlim, _, _, _, hmap⟩ := search_single_request_mapping searchApiW "q"
  refine ⟨hlim, ?_⟩
  have := hmap
    { artists := some ⟨[{ id := "a", name := "nm", images := [] }], 1, 25, 0⟩,
      albums := none, tracks := none } rfl
  simpa [Artist.fromFull] using this
